import Mathlib

/-!
Verification of the reconciliation logic of `generic-untaint-operator`
(`internal/controller/node_controller.go`), a Kubernetes controller that
removes a configured taint from a node once all pods owned by a configured
set of workload names are ready on that node.

The embedding models the store interactions (`Get`, `List`, `Update`) as
explicit result values handed to `Reconcile`, and records in the output
whether the pod index was queried and which node object (if any) was
written back.
-/

namespace UntaintOperator

/-- A node taint: `corev1.Taint` (key, value, effect). -/
structure Taint where
  key : String
  value : String
  effect : String
deriving DecidableEq, Repr

/-- An owner reference on a pod: `metav1.OwnerReference`.
Only `name` is read by the controller; the other fields are carried to
show they play no role. -/
structure OwnerReference where
  apiVersion : String
  kind : String
  name : String
  uid : String
deriving DecidableEq, Repr

/-- A pod status condition: `corev1.PodCondition` (type, status). -/
structure PodCondition where
  type : String
  status : String
deriving DecidableEq, Repr

/-- The pod fields read by the controller: `pod.Spec.NodeName`,
`pod.OwnerReferences`, `pod.Status.Conditions` (plus the name, used only
in log lines). -/
structure Pod where
  name : String
  nodeName : String
  ownerReferences : List OwnerReference
  conditions : List PodCondition
deriving DecidableEq, Repr

/-- The node fields relevant to the controller. `taints` is
`node.Spec.Taints`, the only field the controller ever writes. The other
fields stand for the rest of the object (`ObjectMeta`, the rest of
`Spec`, and `Status`), carried to state the frame property. -/
structure Node where
  name : String
  labels : List (String × String)
  taints : List Taint
  unschedulable : Bool
  providerID : String
  podCIDR : String
  status : String
deriving DecidableEq, Repr

/-- The constant `corev1.PodReady`. -/
def PodReadyType : String := "Ready"

/-- The constant `corev1.ConditionTrue`. -/
def ConditionTrue : String := "True"

/-- The reconciler configuration: `NodeReconciler.TargetTaint` and
`NodeReconciler.OwnedByNames`. -/
structure NodeReconciler where
  targetTaint : String
  ownedByNames : List String
deriving DecidableEq, Repr

/-- The constant `time.Second` in nanoseconds (Go `time.Duration` is an
integer count
of nanoseconds). -/
def timeSecond : Nat := 1000000000

/-- The `ctrl.Result` type: `Requeue` and `RequeueAfter` (nanoseconds). -/
structure CtrlResult where
  requeue : Bool
  requeueAfter : Nat
deriving DecidableEq, Repr

/-- The empty result `ctrl.Result` with zero fields: no requeue requested. -/
def emptyResult : CtrlResult := ⟨false, 0⟩

/-- Outcome of `r.Get(ctx, req.NamespacedName, node)`: the node, a
not-found error, or any other (transient) error. -/
inductive StoreGet where
  | found (node : Node)
  | notFound
  | failure
deriving DecidableEq, Repr

/-- Outcome of `r.List(ctx, pods, client.MatchingFields{...})`: the pods
indexed under the node name, or an error. -/
inductive StoreList where
  | ok (pods : List Pod)
  | failure
deriving DecidableEq, Repr

/-- Outcome of `r.Update(ctx, node)`. -/
inductive StoreUpdate where
  | ok
  | failure
deriving DecidableEq, Repr

/-- Errors `Reconcile` can return: the propagated non-not-found `Get`
error, the wrapped "failed to list pods" error, and the wrapped
"failed to update node" error. -/
inductive ReconcileError where
  | getErr
  | listErr
  | updateErr
deriving DecidableEq, Repr

/-- What one call to `Reconcile` returns and does: the `ctrl.Result`,
the returned error (if any), whether the pod index was queried, and the
node object passed to `Update` (if the update call was issued). -/
structure ReconcileOutput where
  result : CtrlResult
  error : Option ReconcileError
  listed : Bool
  written : Option Node
deriving DecidableEq, Repr

/-- The taint-check loop (node_controller.go lines 41-47): scan
`node.Spec.Taints` for an entry whose `Key` equals `r.TargetTaint`,
breaking at the first hit. -/
def hasTargetTaint (r : NodeReconciler) (taints : List Taint) : Bool :=
  taints.any (fun taint => taint.key == r.targetTaint)

/-- The ownership double loop (lines 65-77): a pod is a target pod when
some owner reference name equals some entry of `r.OwnedByNames`. -/
def isTargetPod (r : NodeReconciler) (pod : Pod) : Bool :=
  pod.ownerReferences.any (fun owner =>
    r.ownedByNames.any (fun targetName => owner.name == targetName))

/-- The readiness loop (lines 84-90): the pod has a condition with
`Type == corev1.PodReady` and `Status == corev1.ConditionTrue`. -/
def podReady (pod : Pod) : Bool :=
  pod.conditions.any (fun condition =>
    condition.type == PodReadyType && condition.status == ConditionTrue)

/-- The pod loop (lines 61-97): walk the listed pods carrying
`hasTargetPods`, skip non-target pods, and break with
`allPodsReady = false` at the first not-ready target pod. Returns
`(allPodsReady, hasTargetPods)`. -/
def checkPods (r : NodeReconciler) : List Pod → Bool → Bool × Bool
  | [], hasTargetPods => (true, hasTargetPods)
  | pod :: rest, hasTargetPods =>
    if isTargetPod r pod then
      if podReady pod then checkPods r rest true
      else (false, true)
    else checkPods r rest hasTargetPods

/-- The removal loop (lines 101-106): rebuild the taint list keeping
exactly the entries whose key differs from the target key, in order. -/
def newTaints (r : NodeReconciler) (taints : List Taint) : List Taint :=
  taints.filter (fun taint => taint.key != r.targetTaint)

/-- The `Reconcile` function (lines 32-120), with the three store calls
supplied as
explicit outcomes. Mirrors the control flow of the Go function: swallow
not-found on `Get`; return early when the taint is absent; propagate a
`List` error; when all target pods are ready and at least one exists,
write the node back with the filtered taint list (propagating an
`Update` error); otherwise requeue after 30 seconds. -/
def Reconcile (r : NodeReconciler) (get : StoreGet) (list : StoreList)
    (update : StoreUpdate) : ReconcileOutput :=
  match get with
  | .failure => ⟨emptyResult, some .getErr, false, none⟩
  | .notFound => ⟨emptyResult, none, false, none⟩
  | .found node =>
    if hasTargetTaint r node.taints then
      match list with
      | .failure => ⟨emptyResult, some .listErr, true, none⟩
      | .ok pods =>
        let checked := checkPods r pods false
        if checked.1 && checked.2 then
          let node' : Node := { node with taints := newTaints r node.taints }
          match update with
          | .failure => ⟨emptyResult, some .updateErr, true, some node'⟩
          | .ok => ⟨emptyResult, none, true, some node'⟩
        else
          ⟨⟨false, 30 * timeSecond⟩, none, true, none⟩
    else
      ⟨emptyResult, none, false, none⟩

/-- The `event.CreateEvent` type (only the object is carried). -/
structure CreateEvent where
  object : Node

/-- The `event.DeleteEvent` type. -/
structure DeleteEvent where
  object : Node
  deleteStateUnknown : Bool

/-- The `event.UpdateEvent` type. -/
structure UpdateEvent where
  objectOld : Node
  objectNew : Node

/-- The `event.GenericEvent` type. -/
structure GenericEvent where
  object : Node

/-- The `predicate.Funcs` record: the four event predicates. -/
structure PredicateFuncs where
  createFunc : CreateEvent → Bool
  deleteFunc : DeleteEvent → Bool
  updateFunc : UpdateEvent → Bool
  genericFunc : GenericEvent → Bool

/-- The event filter installed by `SetupWithManager` (lines 142-155):
admit creates, reject deletes, updates and generic events. -/
def nodeEventFilter : PredicateFuncs where
  createFunc := fun _ => true
  deleteFunc := fun _ => false
  updateFunc := fun _ => false
  genericFunc := fun _ => false

/-! ### Characterization lemmas -/

/-- The taint scan succeeds exactly when some taint entry carries the
target key. -/
lemma hasTargetTaint_iff (r : NodeReconciler) (taints : List Taint) :
    hasTargetTaint r taints = true ↔ ∃ t ∈ taints, t.key = r.targetTaint := by
  simp [hasTargetTaint, List.any_eq_true, beq_iff_eq]

/-- The ownership scan succeeds exactly when some owner-reference name
is in the configured name list. -/
lemma isTargetPod_iff (r : NodeReconciler) (pod : Pod) :
    isTargetPod r pod = true ↔
      ∃ owner ∈ pod.ownerReferences, owner.name ∈ r.ownedByNames := by
  simp [isTargetPod, List.any_eq_true, beq_iff_eq]

/-- The readiness scan succeeds exactly when some condition has type
`Ready` and status `True`. -/
lemma podReady_iff (pod : Pod) :
    podReady pod = true ↔
      ∃ condition ∈ pod.conditions,
        condition.type = PodReadyType ∧ condition.status = ConditionTrue := by
  simp [podReady, List.any_eq_true, beq_iff_eq]

/-- Closed form of the pod loop: despite the short-circuit break, the
first component is "every target pod is ready" and the second is the
carried flag or "some target pod exists". -/
lemma checkPods_eq (r : NodeReconciler) (pods : List Pod) :
    ∀ b : Bool,
      checkPods r pods b =
        (pods.all (fun pod => !isTargetPod r pod || podReady pod),
         b || pods.any (fun pod => isTargetPod r pod)) := by
  induction pods with
  | nil => intro b; simp [checkPods]
  | cons pod rest ih =>
    intro b
    simp only [checkPods, List.all_cons, List.any_cons]
    cases h1 : isTargetPod r pod
    · simp [h1, ih b]
    · cases h2 : podReady pod
      · simp [h1, h2]
      · simp [h1, h2, ih true]

/-- The removal condition `allPodsReady && hasTargetPods` holds exactly
when some target pod exists and every target pod is ready. -/
lemma checkPods_decision_iff (r : NodeReconciler) (pods : List Pod) :
    ((checkPods r pods false).1 && (checkPods r pods false).2) = true ↔
      (∃ pod ∈ pods, isTargetPod r pod = true) ∧
        ∀ pod ∈ pods, isTargetPod r pod = true → podReady pod = true := by
  rw [checkPods_eq r pods false]
  simp only [Bool.false_or, Bool.and_eq_true, List.all_eq_true, List.any_eq_true]
  constructor
  · rintro ⟨hall, hany⟩
    refine ⟨hany, fun pod hmem htarget => ?_⟩
    have := hall pod hmem
    simpa [htarget] using this
  · rintro ⟨hany, hall⟩
    refine ⟨fun pod hmem => ?_, hany⟩
    cases htarget : isTargetPod r pod
    · simp
    · simpa using hall pod hmem htarget

/-- Membership in the rebuilt taint list: an entry survives exactly when
it was present and its key differs from the target key. -/
lemma mem_newTaints_iff (r : NodeReconciler) (taints : List Taint) (t : Taint) :
    t ∈ newTaints r taints ↔ t ∈ taints ∧ t.key ≠ r.targetTaint := by
  simp [newTaints, List.mem_filter, bne_iff_ne]

/-- After removal the taint scan no longer finds the target key. -/
lemma hasTargetTaint_newTaints (r : NodeReconciler) (taints : List Taint) :
    hasTargetTaint r (newTaints r taints) = false := by
  cases h : hasTargetTaint r (newTaints r taints)
  · rfl
  · exfalso
    obtain ⟨t, hmem, hkey⟩ := (hasTargetTaint_iff r _).mp h
    exact ((mem_newTaints_iff r taints t).mp hmem).2 hkey

/-- Helper converting a semantic "no taint entry carries the target key"
statement to the Boolean scan result. -/
lemma hasTargetTaint_eq_false (r : NodeReconciler) (taints : List Taint)
    (h : ∀ t ∈ taints, ¬t.key = r.targetTaint) :
    hasTargetTaint r taints = false := by
  cases hh : hasTargetTaint r taints
  · rfl
  · obtain ⟨t, hm, hk⟩ := (hasTargetTaint_iff r taints).mp hh
    exact absurd hk (h t hm)

/-- Any-scan over a list is stable under permutation of the list. -/
lemma any_eq_of_perm {α : Type} {l l' : List α} (h : l.Perm l')
    (p : α → Bool) : l.any p = l'.any p := by
  apply Bool.eq_iff_iff.mpr
  simp only [List.any_eq_true]
  exact ⟨fun ⟨x, hx, hp⟩ => ⟨x, h.mem_iff.mp hx, hp⟩,
    fun ⟨x, hx, hp⟩ => ⟨x, h.mem_iff.mpr hx, hp⟩⟩

/-- All-scan over a list is stable under permutation of the list. -/
lemma all_eq_of_perm {α : Type} {l l' : List α} (h : l.Perm l')
    (p : α → Bool) : l.all p = l'.all p := by
  apply Bool.eq_iff_iff.mpr
  simp only [List.all_eq_true]
  exact ⟨fun hA x hx => hA x (h.mem_iff.mpr hx),
    fun hA x hx => hA x (h.mem_iff.mp hx)⟩

/-! ### Concrete fixtures used by the witness theorems -/

/-- A sample configuration: one target taint key, two workload names. -/
def sampleReconciler : NodeReconciler :=
  ⟨"example.io/not-ready", ["cni-agent", "storage-agent"]⟩

/-- A taint carrying the target key. -/
def sampleTargetTaint : Taint := ⟨"example.io/not-ready", "", "NoSchedule"⟩

/-- A taint carrying an unrelated key. -/
def sampleOtherTaint : Taint := ⟨"other.io/key", "v", "NoExecute"⟩

/-- A node carrying the target taint twice (duplicate keys) plus an
unrelated taint. -/
def sampleNode : Node :=
  ⟨"node-1", [("zone", "a")], [sampleTargetTaint, sampleOtherTaint, sampleTargetTaint],
    false, "prov-1", "10.0.0.0/24", "status-blob"⟩

/-- The same node without any target-key taint. -/
def sampleNodeNoTaint : Node :=
  ⟨"node-1", [("zone", "a")], [sampleOtherTaint], false, "prov-1", "10.0.0.0/24",
    "status-blob"⟩

/-- A ready pod owned by the `cni-agent` workload. -/
def samplePodReady : Pod :=
  ⟨"cni-agent-abc", "node-1", [⟨"apps/v1", "DaemonSet", "cni-agent", "uid-1"⟩],
    [⟨"Initialized", "True"⟩, ⟨"Ready", "True"⟩]⟩

/-- A not-ready pod owned by the `storage-agent` workload. -/
def samplePodNotReady : Pod :=
  ⟨"storage-agent-xyz", "node-1", [⟨"apps/v1", "DaemonSet", "storage-agent", "uid-2"⟩],
    [⟨"Ready", "False"⟩]⟩

/-- A ready pod owned by a workload outside the configured name list. -/
def samplePodForeign : Pod :=
  ⟨"web-123", "node-1", [⟨"apps/v1", "ReplicaSet", "web-77f9", "uid-3"⟩],
    [⟨"Ready", "True"⟩]⟩

/-! ### Claim theorems -/

/-- C1: for a node with the target taint and a non-empty set of target
pods that are all ready, `Reconcile` issues exactly one update writing
the node back with every target-key taint entry removed and only those,
and returns an empty result with no error. -/
theorem reconcile_all_ready_removes_target_taints
    (r : NodeReconciler) (node : Node) (pods : List Pod)
    (htaint : ∃ t ∈ node.taints, t.key = r.targetTaint)
    (htarget : ∃ pod ∈ pods, isTargetPod r pod = true)
    (hready : ∀ pod ∈ pods, isTargetPod r pod = true → podReady pod = true) :
    Reconcile r (StoreGet.found node) (StoreList.ok pods) StoreUpdate.ok =
      ⟨emptyResult, none, true, some { node with taints := newTaints r node.taints }⟩ ∧
    (∀ t ∈ newTaints r node.taints, ¬t.key = r.targetTaint) ∧
    ∀ t ∈ node.taints, ¬t.key = r.targetTaint → t ∈ newTaints r node.taints := by
  have h1 : hasTargetTaint r node.taints = true := (hasTargetTaint_iff r _).mpr htaint
  have h2 : ((checkPods r pods false).1 && (checkPods r pods false).2) = true :=
    (checkPods_decision_iff r pods).mpr ⟨htarget, hready⟩
  refine ⟨?_, ?_, ?_⟩
  · simp [Reconcile, h1, h2]
  · intro t ht
    exact ((mem_newTaints_iff r node.taints t).mp ht).2
  · intro t ht hk
    exact (mem_newTaints_iff r node.taints t).mpr ⟨ht, hk⟩

/-- Witness for C1 at a concrete node and pod list. -/
theorem reconcile_all_ready_removes_target_taints_witness :
    (∃ t ∈ sampleNode.taints, t.key = sampleReconciler.targetTaint) ∧
    (∃ pod ∈ [samplePodReady], isTargetPod sampleReconciler pod = true) ∧
    (∀ pod ∈ [samplePodReady],
      isTargetPod sampleReconciler pod = true → podReady pod = true) ∧
    (Reconcile sampleReconciler (StoreGet.found sampleNode)
        (StoreList.ok [samplePodReady]) StoreUpdate.ok =
      ⟨emptyResult, none, true,
        some { sampleNode with taints := newTaints sampleReconciler sampleNode.taints }⟩ ∧
    (∀ t ∈ newTaints sampleReconciler sampleNode.taints,
      ¬t.key = sampleReconciler.targetTaint) ∧
    ∀ t ∈ sampleNode.taints,
      ¬t.key = sampleReconciler.targetTaint →
        t ∈ newTaints sampleReconciler sampleNode.taints) :=
  ⟨by decide, by decide, by decide,
    reconcile_all_ready_removes_target_taints sampleReconciler sampleNode
      [samplePodReady] (by decide) (by decide) (by decide)⟩

/-- C2: for a node with the target taint whose listed pods either contain
no target pod or contain a not-ready target pod, `Reconcile` writes
nothing, returns no error, and requests a requeue after the constant
delay of 30 seconds. -/
theorem reconcile_blocked_requeues_30s
    (r : NodeReconciler) (node : Node) (pods : List Pod) (update : StoreUpdate)
    (htaint : ∃ t ∈ node.taints, t.key = r.targetTaint)
    (hblock : (∀ pod ∈ pods, isTargetPod r pod = false) ∨
      ∃ pod ∈ pods, isTargetPod r pod = true ∧ podReady pod = false) :
    Reconcile r (StoreGet.found node) (StoreList.ok pods) update =
      ⟨⟨false, 30 * timeSecond⟩, none, true, none⟩ := by
  have h1 : hasTargetTaint r node.taints = true := (hasTargetTaint_iff r _).mpr htaint
  have h2 : ¬(((checkPods r pods false).1 && (checkPods r pods false).2) = true) := by
    rw [checkPods_decision_iff]
    rintro ⟨⟨p, hp, htp⟩, hall⟩
    rcases hblock with hnone | ⟨q, hq, hqt, hqnr⟩
    · rw [hnone p hp] at htp
      exact Bool.false_ne_true htp
    · have := hall q hq hqt
      rw [hqnr] at this
      exact Bool.false_ne_true this
  have h2f : ((checkPods r pods false).1 && (checkPods r pods false).2) = false := by
    cases hh : (checkPods r pods false).1 && (checkPods r pods false).2
    · rfl
    · exact absurd hh h2
  simp [Reconcile, h1, h2f]

/-- Witness for C2 at a concrete node with one not-ready target pod. -/
theorem reconcile_blocked_requeues_30s_witness :
    (∃ t ∈ sampleNode.taints, t.key = sampleReconciler.targetTaint) ∧
    ((∀ pod ∈ [samplePodReady, samplePodNotReady],
        isTargetPod sampleReconciler pod = false) ∨
      ∃ pod ∈ [samplePodReady, samplePodNotReady],
        isTargetPod sampleReconciler pod = true ∧ podReady pod = false) ∧
    Reconcile sampleReconciler (StoreGet.found sampleNode)
        (StoreList.ok [samplePodReady, samplePodNotReady]) StoreUpdate.ok =
      ⟨⟨false, 30 * timeSecond⟩, none, true, none⟩ :=
  ⟨by decide, by decide,
    reconcile_blocked_requeues_30s sampleReconciler sampleNode
      [samplePodReady, samplePodNotReady] StoreUpdate.ok (by decide) (by decide)⟩

/-- C3: for a node without the target taint, `Reconcile` returns an
empty result and no error, performs no write, and never queries the pod
index, whatever the pod list or update outcomes would have been. -/
theorem reconcile_no_taint_noop
    (r : NodeReconciler) (node : Node)
    (h : ∀ t ∈ node.taints, ¬t.key = r.targetTaint) :
    ∀ (list : StoreList) (update : StoreUpdate),
      Reconcile r (StoreGet.found node) list update =
        ⟨emptyResult, none, false, none⟩ := by
  have h1 : hasTargetTaint r node.taints = false := hasTargetTaint_eq_false r _ h
  intro list update
  simp [Reconcile, h1]

/-- Witness for C3 at a concrete untainted node with pods present. -/
theorem reconcile_no_taint_noop_witness :
    (∀ t ∈ sampleNodeNoTaint.taints, ¬t.key = sampleReconciler.targetTaint) ∧
    Reconcile sampleReconciler (StoreGet.found sampleNodeNoTaint)
        (StoreList.ok [samplePodNotReady]) StoreUpdate.ok =
      ⟨emptyResult, none, false, none⟩ :=
  ⟨by decide,
    reconcile_no_taint_noop sampleReconciler sampleNodeNoTaint (by decide)
      (StoreList.ok [samplePodNotReady]) StoreUpdate.ok⟩

/-- C4: the readiness test holds exactly when the pod has a condition
entry with type `Ready` and status `True`; in particular a pod with no
conditions, or whose `Ready` condition has any other status, is not
ready. -/
theorem podReady_iff_ready_true_condition (pod : Pod) :
    podReady pod = true ↔
      ∃ condition ∈ pod.conditions,
        condition.type = PodReadyType ∧ condition.status = ConditionTrue :=
  podReady_iff pod

/-- C5: a pod is a target pod exactly when some owner-reference name is
in the configured name list; the test depends only on the reference
names (not on API version, kind or UID); and a tainted node whose pods
all lack a configured owner name gets a 30-second recheck, not a
removal. -/
theorem targetPod_matches_on_owner_name_only :
    (∀ (r : NodeReconciler) (pod : Pod),
      isTargetPod r pod = true ↔
        ∃ owner ∈ pod.ownerReferences, owner.name ∈ r.ownedByNames) ∧
    (∀ (r : NodeReconciler) (pod1 pod2 : Pod),
      pod1.ownerReferences.map OwnerReference.name =
          pod2.ownerReferences.map OwnerReference.name →
        isTargetPod r pod1 = isTargetPod r pod2) ∧
    ∀ (r : NodeReconciler) (node : Node) (pods : List Pod) (update : StoreUpdate),
      (∃ t ∈ node.taints, t.key = r.targetTaint) →
      (∀ pod ∈ pods, ∀ owner ∈ pod.ownerReferences, owner.name ∉ r.ownedByNames) →
      Reconcile r (StoreGet.found node) (StoreList.ok pods) update =
        ⟨⟨false, 30 * timeSecond⟩, none, true, none⟩ := by
  have anyName : ∀ (l : List OwnerReference) (f : String → Bool),
      l.any (fun owner => f owner.name) = (l.map OwnerReference.name).any f := by
    intro l f
    induction l with
    | nil => rfl
    | cons a t ih => simp [ih]
  have key : ∀ (r : NodeReconciler) (pod : Pod),
      isTargetPod r pod =
        (pod.ownerReferences.map OwnerReference.name).any
          (fun n => r.ownedByNames.any (fun targetName => n == targetName)) := by
    intro r pod
    exact anyName pod.ownerReferences
      (fun n => r.ownedByNames.any (fun targetName => n == targetName))
  refine ⟨fun r pod => isTargetPod_iff r pod, fun r pod1 pod2 hnames => ?_, ?_⟩
  · rw [key, key, hnames]
  · intro r node pods update htaint hforeign
    have h1 : hasTargetTaint r node.taints = true := (hasTargetTaint_iff r _).mpr htaint
    have h2f : ((checkPods r pods false).1 && (checkPods r pods false).2) = false := by
      cases hh : (checkPods r pods false).1 && (checkPods r pods false).2
      · rfl
      · exfalso
        obtain ⟨⟨p, hp, htp⟩, -⟩ := (checkPods_decision_iff r pods).mp hh
        obtain ⟨owner, ho, hname⟩ := (isTargetPod_iff r p).mp htp
        exact hforeign p hp owner ho hname
    simp [Reconcile, h1, h2f]

/-- Witness for C5 at a ready pod owned by a workload outside the
configured name list. -/
theorem targetPod_matches_on_owner_name_only_witness :
    (∃ t ∈ sampleNode.taints, t.key = sampleReconciler.targetTaint) ∧
    (∀ pod ∈ [samplePodForeign], ∀ owner ∈ pod.ownerReferences,
      owner.name ∉ sampleReconciler.ownedByNames) ∧
    Reconcile sampleReconciler (StoreGet.found sampleNode)
        (StoreList.ok [samplePodForeign]) StoreUpdate.ok =
      ⟨⟨false, 30 * timeSecond⟩, none, true, none⟩ :=
  ⟨by decide, by decide,
    targetPod_matches_on_owner_name_only.2.2 sampleReconciler sampleNode
      [samplePodForeign] StoreUpdate.ok (by decide) (by decide)⟩

/-- Pointwise relation for C6: the same pod up to a permutation of its
owner-reference list. -/
def PodOwnersPermuted (p q : Pod) : Prop :=
  p.name = q.name ∧ p.nodeName = q.nodeName ∧ p.conditions = q.conditions ∧
    p.ownerReferences.Perm q.ownerReferences

/-- Permuting a pod's owner references does not change the target test. -/
lemma isTargetPod_eq_of_owners_perm (r : NodeReconciler) {p q : Pod}
    (h : PodOwnersPermuted p q) : isTargetPod r p = isTargetPod r q :=
  any_eq_of_perm h.2.2.2 _

/-- Permuting a pod's owner references does not change the readiness
test (it only reads the conditions). -/
lemma podReady_eq_of_owners_perm {p q : Pod}
    (h : PodOwnersPermuted p q) : podReady p = podReady q := by
  simp [podReady, h.2.2.1]

/-- All-scan is stable under a pointwise relation that preserves the
scanned predicate. -/
lemma all_eq_of_forall₂ {α : Type} {R : α → α → Prop} {l l' : List α}
    (h : List.Forall₂ R l l') {f : α → Bool} (hf : ∀ a b, R a b → f a = f b) :
    l.all f = l'.all f := by
  induction h with
  | nil => rfl
  | cons hab _ ih => simp [List.all_cons, hf _ _ hab, ih]

/-- Any-scan is stable under a pointwise relation that preserves the
scanned predicate. -/
lemma any_eq_of_forall₂ {α : Type} {R : α → α → Prop} {l l' : List α}
    (h : List.Forall₂ R l l') {f : α → Bool} (hf : ∀ a b, R a b → f a = f b) :
    l.any f = l'.any f := by
  induction h with
  | nil => rfl
  | cons hab _ ih => simp [List.any_cons, hf _ _ hab, ih]

/-- C6: the reconcile outcome is invariant under permuting the pod list
and permuting each pod's owner-reference list: despite the
short-circuit, the decision only depends on whether a target pod exists
and whether a not-ready target pod exists. -/
theorem reconcile_invariant_under_pod_permutation
    (r : NodeReconciler) (node : Node) (pods mid pods' : List Pod)
    (update : StoreUpdate)
    (hperm : pods.Perm mid)
    (hown : List.Forall₂ PodOwnersPermuted mid pods') :
    Reconcile r (StoreGet.found node) (StoreList.ok pods) update =
      Reconcile r (StoreGet.found node) (StoreList.ok pods') update := by
  have hf : ∀ p q : Pod, PodOwnersPermuted p q →
      (!isTargetPod r p || podReady p) = (!isTargetPod r q || podReady q) := by
    intro p q hpq
    rw [isTargetPod_eq_of_owners_perm r hpq, podReady_eq_of_owners_perm hpq]
  have hg : ∀ p q : Pod, PodOwnersPermuted p q →
      isTargetPod r p = isTargetPod r q :=
    fun p q hpq => isTargetPod_eq_of_owners_perm r hpq
  have hall : pods.all (fun pod => !isTargetPod r pod || podReady pod) =
      pods'.all (fun pod => !isTargetPod r pod || podReady pod) :=
    (all_eq_of_perm hperm _).trans (all_eq_of_forall₂ hown hf)
  have hany : pods.any (fun pod => isTargetPod r pod) =
      pods'.any (fun pod => isTargetPod r pod) :=
    (any_eq_of_perm hperm _).trans (any_eq_of_forall₂ hown hg)
  have hcheck : checkPods r pods false = checkPods r pods' false := by
    rw [checkPods_eq r pods false, checkPods_eq r pods' false, hall, hany]
  simp only [Reconcile, hcheck]

/-- Witness for C6: swapping two pods and reversing one pod's owner
references leaves the outcome unchanged. -/
theorem reconcile_invariant_under_pod_permutation_witness :
    ([samplePodReady, samplePodNotReady].Perm [samplePodNotReady, samplePodReady]) ∧
    (List.Forall₂ PodOwnersPermuted [samplePodNotReady, samplePodReady]
      [samplePodNotReady, samplePodReady]) ∧
    Reconcile sampleReconciler (StoreGet.found sampleNode)
        (StoreList.ok [samplePodReady, samplePodNotReady]) StoreUpdate.ok =
      Reconcile sampleReconciler (StoreGet.found sampleNode)
        (StoreList.ok [samplePodNotReady, samplePodReady]) StoreUpdate.ok :=
  ⟨List.Perm.swap _ _ _,
    List.Forall₂.cons ⟨rfl, rfl, rfl, List.Perm.refl _⟩
      (List.Forall₂.cons ⟨rfl, rfl, rfl, List.Perm.refl _⟩ List.Forall₂.nil),
    reconcile_invariant_under_pod_permutation sampleReconciler sampleNode
      [samplePodReady, samplePodNotReady] [samplePodNotReady, samplePodReady]
      [samplePodNotReady, samplePodReady] StoreUpdate.ok
      (List.Perm.swap _ _ _)
      (List.Forall₂.cons ⟨rfl, rfl, rfl, List.Perm.refl _⟩
        (List.Forall₂.cons ⟨rfl, rfl, rfl, List.Perm.refl _⟩ List.Forall₂.nil))⟩

/-- C7: removal drops every target-key entry (duplicates included) in
one pass, filtering an already-filtered list changes nothing, and a
second reconcile of a node whose target taints were already removed is
a write-free, error-free no-op because the taint check fails. -/
theorem taint_removal_idempotent :
    (∀ (r : NodeReconciler) (taints : List Taint),
      newTaints r (newTaints r taints) = newTaints r taints) ∧
    (∀ (r : NodeReconciler) (taints : List Taint) (t : Taint),
      t ∈ newTaints r taints ↔ t ∈ taints ∧ ¬t.key = r.targetTaint) ∧
    ∀ (r : NodeReconciler) (node : Node) (list : StoreList) (update : StoreUpdate),
      Reconcile r (StoreGet.found { node with taints := newTaints r node.taints })
          list update =
        ⟨emptyResult, none, false, none⟩ := by
  refine ⟨fun r taints => ?_, fun r taints t => mem_newTaints_iff r taints t, ?_⟩
  · apply List.filter_eq_self.mpr
    intro t ht
    have hk := ((mem_newTaints_iff r taints t).mp ht).2
    simpa [bne_iff_ne] using hk
  · intro r node list update
    have h1 : hasTargetTaint r (newTaints r node.taints) = false :=
      hasTargetTaint_newTaints r node.taints
    simp [Reconcile, h1]

/-- Counterexample to C8 as stated: when the node fetch itself fails
with a non-not-found error, `Reconcile` returns an error even though the
pod-list query was never issued and no node update was attempted, so
"error only if the pod-list query or the node-update write fails" does
not hold. -/
theorem reconcile_error_iff_list_or_update_counterexample :
    (Reconcile sampleReconciler StoreGet.failure (StoreList.ok []) StoreUpdate.ok).error ≠
        none ∧
    (Reconcile sampleReconciler StoreGet.failure (StoreList.ok []) StoreUpdate.ok).listed =
        false ∧
    (Reconcile sampleReconciler StoreGet.failure (StoreList.ok []) StoreUpdate.ok).written =
        none := by
  decide

/-- C8 (amended): `Reconcile` returns an error exactly when the node
fetch fails with a non-not-found error, or the pod-list query fails, or
the node-update write (reached only on the removal path) fails; a
not-found fetch is swallowed and yields a no-op success: the empty
result, no error, no pod-list query and no write. -/
theorem reconcile_error_characterization
    (r : NodeReconciler) (get : StoreGet) (list : StoreList)
    (update : StoreUpdate) :
    ((Reconcile r get list update).error ≠ none ↔
      get = StoreGet.failure ∨
      ∃ node, get = StoreGet.found node ∧ hasTargetTaint r node.taints = true ∧
        (list = StoreList.failure ∨
          ∃ pods, list = StoreList.ok pods ∧
            ((checkPods r pods false).1 && (checkPods r pods false).2) = true ∧
            update = StoreUpdate.failure)) ∧
    Reconcile r StoreGet.notFound list update =
      ⟨emptyResult, none, false, none⟩ := by
  refine ⟨?_, rfl⟩
  cases get with
  | failure => simp [Reconcile]
  | notFound => simp [Reconcile]
  | found node =>
    cases h1 : hasTargetTaint r node.taints with
    | false => simp [Reconcile, h1]
    | true =>
      cases list with
      | failure => simp [Reconcile, h1]
      | ok pods =>
        cases h2 : (checkPods r pods false).1 && (checkPods r pods false).2 with
        | false =>
          simp [Reconcile, h1, h2]
          intro ha hb
          rw [ha, hb] at h2
          exact absurd h2 (by decide)
        | true =>
          cases update with
          | ok => simp [Reconcile, h1, h2]
          | failure =>
            simp [Reconcile, h1, h2]
            rw [Bool.and_eq_true] at h2
            exact h2

/-- C9: the event filter admits every create event and rejects every
update, delete and generic event, whatever the event carries. -/
theorem event_filter_admits_only_creates :
    (∀ e : CreateEvent, nodeEventFilter.createFunc e = true) ∧
    (∀ e : UpdateEvent, nodeEventFilter.updateFunc e = false) ∧
    (∀ e : DeleteEvent, nodeEventFilter.deleteFunc e = false) ∧
    ∀ e : GenericEvent, nodeEventFilter.genericFunc e = false :=
  ⟨fun _ => rfl, fun _ => rfl, fun _ => rfl, fun _ => rfl⟩

/-- C10: on the removal path the node written back agrees with the node
that was read on every field except the taint list, and the surviving
taint entries are exactly the non-target-key ones in their original
relative order (a sublist of the original list). -/
theorem removal_write_changes_only_taints
    (r : NodeReconciler) (node : Node) (pods : List Pod) (update : StoreUpdate)
    (htaint : ∃ t ∈ node.taints, t.key = r.targetTaint)
    (htarget : ∃ pod ∈ pods, isTargetPod r pod = true)
    (hready : ∀ pod ∈ pods, isTargetPod r pod = true → podReady pod = true) :
    ∃ node',
      (Reconcile r (StoreGet.found node) (StoreList.ok pods) update).written =
          some node' ∧
      node'.name = node.name ∧ node'.labels = node.labels ∧
      node'.unschedulable = node.unschedulable ∧
      node'.providerID = node.providerID ∧ node'.podCIDR = node.podCIDR ∧
      node'.status = node.status ∧
      node'.taints = newTaints r node.taints ∧
      node'.taints.Sublist node.taints := by
  have h1 : hasTargetTaint r node.taints = true := (hasTargetTaint_iff r _).mpr htaint
  have h2 : ((checkPods r pods false).1 && (checkPods r pods false).2) = true :=
    (checkPods_decision_iff r pods).mpr ⟨htarget, hready⟩
  refine ⟨{ node with taints := newTaints r node.taints },
    ?_, rfl, rfl, rfl, rfl, rfl, rfl, rfl, ?_⟩
  · cases update <;> simp [Reconcile, h1, h2]
  · exact List.filter_sublist node.taints

/-- Witness for C10 at a concrete node with duplicate target taints. -/
theorem removal_write_changes_only_taints_witness :
    (∃ t ∈ sampleNode.taints, t.key = sampleReconciler.targetTaint) ∧
    (∃ pod ∈ [samplePodReady, samplePodForeign],
      isTargetPod sampleReconciler pod = true) ∧
    (∀ pod ∈ [samplePodReady, samplePodForeign],
      isTargetPod sampleReconciler pod = true → podReady pod = true) ∧
    ∃ node',
      (Reconcile sampleReconciler (StoreGet.found sampleNode)
          (StoreList.ok [samplePodReady, samplePodForeign]) StoreUpdate.ok).written =
          some node' ∧
      node'.name = sampleNode.name ∧ node'.labels = sampleNode.labels ∧
      node'.unschedulable = sampleNode.unschedulable ∧
      node'.providerID = sampleNode.providerID ∧
      node'.podCIDR = sampleNode.podCIDR ∧
      node'.status = sampleNode.status ∧
      node'.taints = newTaints sampleReconciler sampleNode.taints ∧
      node'.taints.Sublist sampleNode.taints :=
  ⟨by decide, by decide, by decide,
    removal_write_changes_only_taints sampleReconciler sampleNode
      [samplePodReady, samplePodForeign] StoreUpdate.ok
      (by decide) (by decide) (by decide)⟩

end UntaintOperator
